import Mathlib

/-!
Verification of the go-s3-sharing repository: a shallow embedding of the
share-authorization engine (internal/service/share_service.go) and the HTTP
presentation layer (internal/transport/http/handler.go), together with
theorems settling the specification claims.

Strings are handled through their character lists so that every operation is
structurally recursive and kernel-evaluable. Machine integers (Go int64 and
Unix seconds) are modelled as Lean Int; no arithmetic here approaches 2^63,
so overflow is immaterial.
-/

deriving instance DecidableEq for Except

namespace S3Share

/-! ## Character-list string utilities (Go strings package semantics) -/

/-- Splits a character list on the slash character, faithful to Go
strings.Split(s, "/"): the empty string yields one empty field, and
consecutive separators yield empty fields. -/
def splitSlash : List Char → List (List Char)
  | [] => [[]]
  | c :: cs =>
    if c = '/' then [] :: splitSlash cs
    else
      match splitSlash cs with
      | [] => [[c]]
      | h :: t => (c :: h) :: t

/-- Joins fields with the slash character, the inverse of splitSlash
(Go strings.Join(xs, "/")). -/
def joinSlash : List (List Char) → List Char
  | [] => []
  | [x] => x
  | x :: xs => x ++ '/' :: joinSlash xs

/-- Joins fields with a dash (Go strings.Join(xs, "-")). -/
def joinDash : List (List Char) → List Char
  | [] => []
  | [x] => x
  | x :: xs => x ++ '-' :: joinDash xs

/-- Removes every leading and trailing slash (Go strings.Trim(s, "/")). -/
def trimSlash (l : List Char) : List Char :=
  ((l.dropWhile (· = '/')).reverse.dropWhile (· = '/')).reverse

/-- Whether the list contains two consecutive dots, faithful to Go
strings.Contains(s, ".."). -/
def containsDotDot : List Char → Bool
  | [] => false
  | c :: rest => (c = '.' && rest.head? = some '.') || containsDotDot rest

/-- A character list free of slashes, so that it occupies exactly one field
after splitSlash. -/
def slashFree (l : List Char) : Bool := l.all (· ≠ '/')

/-! ## Go path.Clean

Lexical path canonicalization exactly as Go's path.Clean: collapse repeated
slashes, drop "." segments, resolve ".." against a preceding segment, keep
leading ".." segments of a relative path, drop them at the root of a rooted
path; the empty result becomes "." (or "/" when rooted). Implemented as the
standard segment-stack formulation of Go's algorithm. -/

/-- Processes path segments against a stack (head = most recent kept
segment). The rooted flag tells whether a ".." at an empty stack is dropped
(rooted) or kept (relative). -/
def cleanLoop (rooted : Bool) : List (List Char) → List (List Char) → List (List Char)
  | stack, [] => stack
  | stack, seg :: rest =>
    if seg = [] ∨ seg = ['.'] then cleanLoop rooted stack rest
    else if seg = ['.', '.'] then
      match stack with
      | top :: stack' =>
        if top = ['.', '.'] then cleanLoop rooted (['.', '.'] :: top :: stack') rest
        else cleanLoop rooted stack' rest
      | [] =>
        if rooted then cleanLoop rooted [] rest
        else cleanLoop rooted [['.', '.']] rest
    else cleanLoop rooted (seg :: stack) rest

/-- Go path.Clean on a character list. -/
def pathCleanChars (l : List Char) : List Char :=
  if l = [] then ['.']
  else
    let rooted := l.head? = some '/'
    let out := (cleanLoop rooted [] (splitSlash l)).reverse
    if out = [] then (if rooted then ['/'] else ['.'])
    else (if rooted then ['/'] else []) ++ joinSlash out

/-- Go path.Clean on strings. -/
def pathClean (p : String) : String := ⟨pathCleanChars p.data⟩

/-! ## Engine data model (internal/domain/types.go, share_service.go) -/

/-- The service error values of the repository (internal/service/s3_service.go
var block) together with the two shapes produced by fmt.Errorf: a wrapping
error (the %w verb) and a plain message error. Go equality on errors is
identity, so a wrapped error never compares equal to a sentinel. -/
inductive Err where
  | errNotFound
  | errUnauthorized
  | errExpired
  | errInvalidPath
  | errInvalidDate
  | wrap (m : String) (cause : Err)
  | msg (m : String)
deriving DecidableEq, Repr

/-- Object metadata returned by HeadObject. -/
structure ObjectMetadata where
  contentType : String
  size : Int
  lastModified : Int
deriving DecidableEq, Repr

/-- The streaming handle returned by GetObject, reduced to its observable
header data. -/
structure ObjectReader where
  contentType : String
  size : Int
deriving DecidableEq, Repr

/-- A Go time.Time as the engine observes it: its Unix-seconds value and the
calendar fields its Format method prints. -/
structure GoTime where
  unix : Int
  year : Nat
  month : Nat
  day : Nat
deriving DecidableEq, Repr

/-- domain.ShareRequest. -/
structure ShareRequest where
  s3Path : String
  secret : String
  expiresAt : GoTime
deriving DecidableEq, Repr

/-- domain.ShareResponse; maxAge is the duration in whole seconds. -/
structure ShareResponse where
  url : String
  expiresAt : GoTime
  maxAge : Int
deriving DecidableEq, Repr

/-- service.ShareConfig. -/
structure ShareConfig where
  maxAgeDays : Int
  baseURL : String
deriving DecidableEq, Repr

/-! ## Adapters

The storage and cache adapters are modelled as response oracles: pure
functions giving each call's result. Every engine operation additionally returns
the exact sequence of adapter calls it performed, so that frame properties
(which calls happened, in which order, with which arguments) are provable. -/

/-- The Object Store Adapter's responses (domain.StorageService). -/
structure StorageOracle where
  headObject : String → Except Err ObjectMetadata
  getObject : String → Except Err ObjectReader

/-- The Secret Cache Adapter's responses (domain.CacheService). -/
structure CacheOracle where
  get : String → Except Err String
  set : String → String → Int → Except Err Unit

/-- One call made to an adapter, with its arguments. -/
inductive AdapterCall where
  | headObject (path : String)
  | getObject (path : String)
  | cacheGet (key : String)
  | cacheSet (key : String) (val : String) (ttl : Int)
  | cacheDelete (key : String)
deriving DecidableEq, Repr

/-- An in-memory cache store: newest binding first, as the test suite's
mockCacheService realizes the CacheService contract. -/
def memLookup : List (String × String) → String → Option String
  | [], _ => none
  | (k, v) :: rest, key => if key = k then some v else memLookup rest key

/-- The cache oracle presented by an in-memory store: Get answers from the
store (a miss is domain.ErrNotFound) and Set always succeeds. -/
def memCache (store : List (String × String)) : CacheOracle where
  get := fun k =>
    match memLookup store k with
    | some v => .ok v
    | none => .error .errNotFound
  set := fun _ _ _ => .ok ()

/-- How one adapter call transforms an in-memory cache store. -/
def applyCall (store : List (String × String)) : AdapterCall → List (String × String)
  | .cacheSet k v _ => (k, v) :: store
  | .cacheDelete k => store.filter (fun e => !(e.1 = k))
  | _ => store

/-- Replays a call trace over an in-memory cache store. -/
def applyCalls (store : List (String × String)) (calls : List AdapterCall) :
    List (String × String) :=
  calls.foldl applyCall store

/-- Whether an adapter call mutates the cache. -/
def isCacheWrite : AdapterCall → Bool
  | .cacheSet _ _ _ => true
  | .cacheDelete _ => true
  | _ => false

/-- Whether an Except carries a success. -/
def exceptIsOk : Except Err α → Bool
  | .ok _ => true
  | .error _ => false

/-! ## Secret and URL generation (share_service.go) -/

/-- One hexadecimal digit, lowercase, as Go fmt %x prints. -/
def hexDigit : Nat → Char
  | 0 => '0' | 1 => '1' | 2 => '2' | 3 => '3' | 4 => '4' | 5 => '5'
  | 6 => '6' | 7 => '7' | 8 => '8' | 9 => '9' | 10 => 'a' | 11 => 'b'
  | 12 => 'c' | 13 => 'd' | 14 => 'e' | _ => 'f'

/-- Hexadecimal digits of n, most significant first, with explicit fuel to
stay structurally recursive. -/
def natHexAux : Nat → Nat → List Char
  | 0, _ => []
  | fuel + 1, n =>
    if n = 0 then [] else natHexAux fuel (n / 16) ++ [hexDigit (n % 16)]

/-- Go fmt %x of a nonnegative integer. -/
def natToHexChars (n : Nat) : List Char :=
  if n = 0 then ['0'] else natHexAux n n

/-- Go fmt %x of an int: a minus sign followed by the magnitude when
negative. -/
def intToHexChars (i : Int) : List Char :=
  if i < 0 then '-' :: natToHexChars i.natAbs else natToHexChars i.toNat

/-- Two zero-padded decimal digits, as the Go time layouts "06", "01" and
"02" print values below one hundred. -/
def pad2 (n : Nat) : List Char := [hexDigit (n / 10 % 10), hexDigit (n % 10)]

/-- generateCacheKey: the literal prefix image-auth: before the raw,
uncanonicalized S3 path. -/
def generateCacheKey (s3Path : String) : String := "image-auth:" ++ s3Path

/-- generateSecret: the deterministic demo secret, fmt.Sprintf of secret_
followed by %x of len(s3Path) + int(expiresAt.Unix()). -/
def generateSecret (s3Path : String) (expiresAt : GoTime) : String :=
  "secret_" ++ ⟨intToHexChars ((s3Path.utf8ByteSize : Int) + expiresAt.unix)⟩

/-- generateShareURL: baseURL/YY/MM/DD/derivedSecret/s3Path, the date being
expiresAt under the Go layout 06/01/02. -/
def generateShareURL (cfg : ShareConfig) (s3Path : String) (expiresAt : GoTime) : String :=
  cfg.baseURL ++ "/" ++ ⟨pad2 (expiresAt.year % 100)⟩ ++ "/" ++ ⟨pad2 expiresAt.month⟩
    ++ "/" ++ ⟨pad2 expiresAt.day⟩ ++ "/" ++ generateSecret s3Path expiresAt
    ++ "/" ++ s3Path

/-! ## The Share Authorization Engine (share_service.go) -/

/-- isValidS3Path: clean the path, then reject a leading slash, a remaining
.. substring, the empty result and the current-directory marker. -/
def isValidS3Path (s3Path : String) : Bool :=
  let c := pathCleanChars s3Path.data
  if c.head? = some '/' || containsDotDot c then false
  else !(c = []) && !(c = ['.'])

/-- CreateShare: validate the path, confirm existence via HeadObject, require
a strictly future expiry, store the caller's secret under the cache key with
TTL equal to the remaining seconds, and return the built URL. The second
component is the exact adapter-call trace. -/
def createShare (cfg : ShareConfig) (st : StorageOracle) (ca : CacheOracle)
    (now : Int) (req : ShareRequest) : Except Err ShareResponse × List AdapterCall :=
  if !isValidS3Path req.s3Path then (.error .errInvalidPath, [])
  else
    match st.headObject req.s3Path with
    | .error e => (.error (.wrap "object not found" e), [.headObject req.s3Path])
    | .ok _ =>
      let cacheKey := generateCacheKey req.s3Path
      let expiration := req.expiresAt.unix - now
      if expiration ≤ 0 then
        (.error (.msg "expiration time must be in the future"), [.headObject req.s3Path])
      else
        match ca.set cacheKey req.secret expiration with
        | .error e =>
          (.error (.wrap "failed to store share in cache" e),
            [.headObject req.s3Path, .cacheSet cacheKey req.secret expiration])
        | .ok _ =>
          (.ok ⟨generateShareURL cfg req.s3Path req.expiresAt, req.expiresAt, expiration⟩,
            [.headObject req.s3Path, .cacheSet cacheKey req.secret expiration])

/-- ValidateShare: validate the path, read the cache key, translate a miss
into Unauthorized, wrap any other read failure, and compare secrets by exact
string equality. -/
def validateShare (ca : CacheOracle) (s3Path secret : String) :
    Except Err Unit × List AdapterCall :=
  if !isValidS3Path s3Path then (.error .errInvalidPath, [])
  else
    let cacheKey := generateCacheKey s3Path
    match ca.get cacheKey with
    | .error e =>
      if e = .errNotFound then (.error .errUnauthorized, [.cacheGet cacheKey])
      else (.error (.wrap "failed to validate share" e), [.cacheGet cacheKey])
    | .ok cachedSecret =>
      if cachedSecret ≠ secret then (.error .errUnauthorized, [.cacheGet cacheKey])
      else (.ok (), [.cacheGet cacheKey])

/-- GetObject: validate the path and delegate to the storage adapter,
wrapping any failure. -/
def getObjectSvc (st : StorageOracle) (s3Path : String) :
    Except Err ObjectReader × List AdapterCall :=
  if !isValidS3Path s3Path then (.error .errInvalidPath, [])
  else
    match st.getObject s3Path with
    | .error e => (.error (.wrap "failed to get object" e), [.getObject s3Path])
    | .ok r => (.ok r, [.getObject s3Path])

/-! ## Parsing a share URL back into its segments

The URL built by generateShareURL has the shape
base slash YY slash MM slash DD slash secret slash objectPath.
Parsing back means removing the base and reading the slash-separated fields:
three date fields, the secret field, and the remainder rejoined as the
object path, exactly the decomposition the catch-all route performs. -/

/-- Removes an expected leading character sequence, or fails. -/
def dropPre : List Char → List Char → Option (List Char)
  | [], rest => some rest
  | _ :: _, [] => none
  | a :: as, b :: bs => if a = b then dropPre as bs else none

/-- Splits a share URL under a given base into
(yy, mm, dd, secret, objectPath). -/
def parseShareURL (base url : String) : Option (String × String × String × String × String) :=
  match dropPre (base.data ++ ['/']) url.data with
  | none => none
  | some rest =>
    match splitSlash rest with
    | d1 :: d2 :: d3 :: sec :: tail =>
      if tail = [] then none
      else some (⟨d1⟩, ⟨d2⟩, ⟨d3⟩, ⟨sec⟩, ⟨joinSlash tail⟩)
    | _ => none

/-! ## Date parsing (handler.go parseDate, Go time.Parse with layout 06-01-02)

The layout demands exactly two digits, a dash, two digits, a dash, two
digits, with nothing left over; the two-digit year maps to 1969-2068 (69-99
to the twentieth century, 00-68 to the twenty-first); month and day are
range-checked against the calendar. The result is the Unix-seconds value of
midnight UTC of that date, via the standard civil-from-days computation. -/

/-- Decimal digit test. -/
def isDig (c : Char) : Bool := '0' ≤ c ∧ c ≤ '9'

/-- Decimal digit value. -/
def digVal (c : Char) : Nat := c.toNat - '0'.toNat

/-- Gregorian leap-year test. -/
def isLeap (y : Nat) : Bool := y % 4 = 0 && (y % 100 ≠ 0 || y % 400 = 0)

/-- Days in a month of a given year. -/
def daysIn (y m : Nat) : Nat :=
  if m = 2 then (if isLeap y then 29 else 28)
  else if m = 4 ∨ m = 6 ∨ m = 9 ∨ m = 11 then 30
  else 31

/-- Days since 1970-01-01 of a civil date (Howard Hinnant's algorithm, with
truncating integer division, valid for the years reachable here). -/
def daysFromCivil (y m d : Int) : Int :=
  let y' := if m ≤ 2 then y - 1 else y
  let era := (if y' ≥ 0 then y' else y' - 399) / 400
  let yoe := y' - era * 400
  let mp := if m > 2 then m - 3 else m + 9
  let doy := (153 * mp + 2) / 5 + d - 1
  let doe := yoe * 365 + yoe / 4 - yoe / 100 + doy
  era * 146097 + doe - 719468

/-- parseDate: Go time.Parse with the fixed layout 06-01-02, returning the
Unix-seconds value of midnight UTC. -/
def parseDate (l : List Char) : Except Err Int :=
  match l with
  | [a, b, '-', c, d, '-', e, f] =>
    if isDig a && isDig b && isDig c && isDig d && isDig e && isDig f then
      let yy := digVal a * 10 + digVal b
      let mm := digVal c * 10 + digVal d
      let dd := digVal e * 10 + digVal f
      let year := if yy ≥ 69 then 1900 + yy else 2000 + yy
      if mm < 1 ∨ mm > 12 then .error .errInvalidDate
      else if dd < 1 ∨ dd > daysIn year mm then .error .errInvalidDate
      else .ok (86400 * daysFromCivil year mm dd)
    else .error .errInvalidDate
  | _ => .error .errInvalidDate

/-! ## Request Router / Presentation (handler.go) -/

/-- An HTTP response body as the handler writes it. -/
inductive Body where
  | text (s : String)
  | jsonError (error : String) (code : Nat) (message : String)
  | objectData (contentType : String) (size : Int)
  | shareJson (url : String) (expiresAtUnix : Int) (maxAgeSeconds : Int)
deriving DecidableEq, Repr

/-- An HTTP response: status code and body. -/
structure HttpResponse where
  status : Nat
  body : Body
deriving DecidableEq, Repr

/-- http.NotFound: plain-text 404. -/
def notFoundResp : HttpResponse := ⟨404, .text "404 page not found"⟩

/-- writeError: the JSON failure body with error, code and message fields,
code equal to the status, message equal to the error text. -/
def writeError (m : String) (code : Nat) : HttpResponse := ⟨code, .jsonError m code m⟩

/-- The HandleImage early guard: API routes and health checks fall through to
their own handlers. -/
def apiGuard (urlPath : String) : Bool :=
  List.isPrefixOf "/api/".data urlPath.data || urlPath = "/health" || urlPath = "/ready"

/-- The slash-separated fields of a trimmed request path, as HandleImage
computes them (strings.Split of strings.Trim). -/
def urlParts (urlPath : String) : List (List Char) :=
  splitSlash (trimSlash urlPath.data)

/-- The date text HandleImage builds from the first three fields, joined
with dashes. -/
def urlDateChars (urlPath : String) : List Char :=
  joinDash ((urlParts urlPath).take 3)

/-- The secret field, the fourth segment. -/
def urlSecret (urlPath : String) : String := ⟨(urlParts urlPath).getD 3 []⟩

/-- The object path, the remaining segments rejoined with slashes. -/
def urlS3Path (urlPath : String) : String := ⟨joinSlash ((urlParts urlPath).drop 4)⟩

/-- HandleImage: reject guarded routes, split the trimmed path, demand five
fields, parse the first three as the date, reject a past date, validate the
share, fetch and stream the object. Returns the response together with the
adapter-call trace of the engine operations it invoked. -/
def handleImage (now : Int) (st : StorageOracle) (ca : CacheOracle)
    (urlPath : String) : HttpResponse × List AdapterCall :=
  if apiGuard urlPath then (notFoundResp, [])
  else if (urlParts urlPath).length < 5 then (notFoundResp, [])
  else
    match parseDate (urlDateChars urlPath) with
    | .error _ => (writeError "invalid date format" 400, [])
    | .ok expiresAt =>
      if expiresAt < now then (writeError "link expired" 403, [])
      else
        match validateShare ca (urlS3Path urlPath) (urlSecret urlPath) with
        | (.error e, t) =>
          (match e with
           | .errUnauthorized => (writeError "unauthorized" 401, t)
           | .errInvalidPath => (writeError "invalid path" 400, t)
           | _ => (writeError "internal error" 500, t))
        | (.ok _, t) =>
          match getObjectSvc st (urlS3Path urlPath) with
          | (.error _, t2) => (writeError "not found" 404, t ++ t2)
          | (.ok r, t2) =>
            (⟨200, .objectData r.contentType r.size⟩, t ++ t2)

/-- The decoded JSON body of POST /api/shares; a zero (absent) expires_at is
None. -/
structure CreateShareReqBody where
  s3Path : String
  secret : String
  expiresAt : Option GoTime
deriving DecidableEq, Repr

/-- HandleCreateShare: POST only, decode the body (None models a decode
failure), require s3_path and secret, default the expiry to now plus
twenty-four hours, call CreateShare, and map any of its failures to a 500.
nowPlus24h is the handler's time.Now().Add(24*time.Hour) value. -/
def handleCreateShare (cfg : ShareConfig) (st : StorageOracle) (ca : CacheOracle)
    (method : String) (now : Int) (nowPlus24h : GoTime)
    (body : Option CreateShareReqBody) : HttpResponse × List AdapterCall :=
  if method ≠ "POST" then (writeError "method not allowed" 405, [])
  else
    match body with
    | none => (writeError "invalid request body" 400, [])
    | some req =>
      if req.s3Path = "" then (writeError "s3_path is required" 400, [])
      else if req.secret = "" then (writeError "secret is required" 400, [])
      else
        let expiresAt := req.expiresAt.getD nowPlus24h
        match createShare cfg st ca now ⟨req.s3Path, req.secret, expiresAt⟩ with
        | (.error _, t) => (writeError "failed to create share" 500, t)
        | (.ok resp, t) =>
          (⟨200, .shareJson resp.url resp.expiresAt.unix resp.maxAge⟩, t)

/-! ## Concrete oracles used by counterexamples and witnesses -/

/-- Metadata of the demo object. -/
def demoMeta : ObjectMetadata := ⟨"image/jpeg", 1024, 0⟩

/-- A store holding exactly one object, img.jpg. -/
def demoStorage : StorageOracle where
  headObject := fun k => if k = "img.jpg" then .ok demoMeta else .error .errNotFound
  getObject := fun k => if k = "img.jpg" then .ok ⟨"image/jpeg", 1024⟩ else .error .errNotFound

/-- A store whose metadata lookups succeed but whose object fetches fail
with a backend (transport) error rather than a not-found. -/
def failStorage : StorageOracle where
  headObject := fun _ => .ok demoMeta
  getObject := fun _ => .error (.msg "connection refused")

/-- The demo engine configuration. -/
def cfg0 : ShareConfig := ⟨90, "http://h"⟩

/-! ## Supporting lemmas -/

theorem splitSlash_ne_nil (l : List Char) : splitSlash l ≠ [] := by
  induction l with
  | nil => simp [splitSlash]
  | cons c cs ih =>
    by_cases h : c = '/'
    · simp [splitSlash, h]
    · simp only [splitSlash, if_neg h]
      cases hs : splitSlash cs with
      | nil => simp
      | cons a t => simp

theorem splitSlash_append (a r : List Char) (h : slashFree a = true) :
    splitSlash (a ++ '/' :: r) = a :: splitSlash r := by
  induction a with
  | nil => simp [splitSlash]
  | cons c cs ih =>
    simp only [slashFree, List.all_cons, Bool.and_eq_true, decide_eq_true_eq] at h
    have ih' : splitSlash (cs ++ '/' :: r) = cs :: splitSlash r := ih h.2
    simp only [List.cons_append, splitSlash, if_neg h.1]
    rw [show splitSlash (cs.append ('/' :: r)) = cs :: splitSlash r from ih']

theorem joinSlash_splitSlash (l : List Char) : joinSlash (splitSlash l) = l := by
  induction l with
  | nil => simp [splitSlash, joinSlash]
  | cons c cs ih =>
    by_cases h : c = '/'
    · subst h
      simp only [splitSlash, if_pos rfl]
      cases hs : splitSlash cs with
      | nil => exact absurd hs (splitSlash_ne_nil cs)
      | cons a t =>
        rw [hs] at ih
        simp [joinSlash, ih]
    · simp only [splitSlash, if_neg h]
      cases hs : splitSlash cs with
      | nil => exact absurd hs (splitSlash_ne_nil cs)
      | cons a t =>
        rw [hs] at ih
        cases t with
        | nil => simp_all [joinSlash]
        | cons b t' => simp_all [joinSlash]

theorem dropPre_append (l r : List Char) : dropPre l (l ++ r) = some r := by
  induction l with
  | nil => rfl
  | cons a as ih => simp [dropPre, ih]

theorem hexDigit_ne_slash (n : Nat) : hexDigit n ≠ '/' := by
  unfold hexDigit
  split <;> decide

theorem slashFree_pad2 (n : Nat) : slashFree (pad2 n) = true := by
  simp [pad2, slashFree, hexDigit_ne_slash]

theorem slashFree_natHexAux (fuel n : Nat) : slashFree (natHexAux fuel n) = true := by
  induction fuel generalizing n with
  | zero => rfl
  | succ f ih =>
    unfold natHexAux
    by_cases h : n = 0
    · simp [h, slashFree]
    · simp only [if_neg h, slashFree, List.all_append, Bool.and_eq_true]
      exact ⟨ih (n / 16), by simp [hexDigit_ne_slash]⟩

theorem slashFree_hexInt (i : Int) : slashFree (intToHexChars i) = true := by
  unfold intToHexChars natToHexChars
  split
  · split
    · decide
    · simp only [slashFree, List.all_cons, Bool.and_eq_true]
      exact ⟨by decide, slashFree_natHexAux _ _⟩
  · split
    · decide
    · exact slashFree_natHexAux _ _

theorem slashFree_secret (p : String) (e : GoTime) :
    slashFree (generateSecret p e).data = true := by
  unfold generateSecret
  rw [String.data_append]
  simp only [slashFree, List.all_append, Bool.and_eq_true]
  exact ⟨by decide, slashFree_hexInt _⟩

/-- A path whose first character is a slash never validates: path.Clean
keeps the leading slash, and the engine rejects it. -/
theorem leading_slash_invalid (p : String) (h : p.data.head? = some '/') :
    isValidS3Path p = false := by
  have hne : p.data ≠ [] := by intro he; rw [he] at h; simp at h
  unfold isValidS3Path pathCleanChars
  simp only [if_neg hne, h]
  cases hout : (cleanLoop true [] (splitSlash p.data)).reverse with
  | nil => simp [hout]
  | cons a t => simp [hout]

/-- Any invalid path makes all three engine operations fail with
InvalidPath before touching an adapter. -/
theorem invalid_path_rejected_all (cfg : ShareConfig) (st : StorageOracle)
    (ca : CacheOracle) (now : Int) (p s sec : String) (e : GoTime)
    (h : isValidS3Path p = false) :
    createShare cfg st ca now ⟨p, s, e⟩ = (.error .errInvalidPath, [])
      ∧ validateShare ca p sec = (.error .errInvalidPath, [])
      ∧ getObjectSvc st p = (.error .errInvalidPath, []) := by
  refine ⟨?_, ?_, ?_⟩ <;> simp [createShare, validateShare, getObjectSvc, h]

/-! ## Claim theorems -/

/-- C2 counterexample. The path a/../b contains a parent-directory segment,
yet path validation accepts it (path.Clean resolves the dotdot first), so
none of the three operations fails with InvalidPath on it and the adapters
are called: CreateShare consults HeadObject, ValidateShare reads the cache
(and even succeeds when the cache holds its secret), GetObject calls the
store. This refutes the claim that every path containing a parent-directory
segment fails with InvalidPath and zero adapter calls. -/
theorem c2_dotdot_path_counterexample :
    (splitSlash "a/../b".data).contains "..".data = true
      ∧ isValidS3Path "a/../b" = true
      ∧ createShare cfg0 demoStorage (memCache []) 0 ⟨"a/../b", "s", ⟨1000, 2025, 9, 13⟩⟩
          ≠ (.error .errInvalidPath, [])
      ∧ (createShare cfg0 demoStorage (memCache []) 0 ⟨"a/../b", "s", ⟨1000, 2025, 9, 13⟩⟩).2
          = [.headObject "a/../b"]
      ∧ validateShare (memCache [("image-auth:a/../b", "s")]) "a/../b" "s"
          = (.ok (), [.cacheGet "image-auth:a/../b"])
      ∧ getObjectSvc demoStorage "a/../b"
          = (.error (.wrap "failed to get object" .errNotFound), [.getObject "a/../b"]) := by
  refine ⟨by decide, by decide, ?_, by decide, by decide, by decide⟩
  decide

/-- C2 amended: every path rejected by path validation — equivalently, one
whose path.Clean form starts with a separator, still contains a
parent-directory marker, or collapses to empty or the current-directory
marker — makes CreateShare, ValidateShare and GetObject all fail with
InvalidPath with zero adapter calls; in particular every path beginning
with a path separator does. A path containing a parent-directory segment
that cleaning resolves away (such as a/../b) is instead accepted. -/
theorem c2_unsafe_paths_rejected (cfg : ShareConfig) (st : StorageOracle)
    (ca : CacheOracle) (now : Int) (p s sec : String) (e : GoTime)
    (h : p.data.head? = some '/' ∨ isValidS3Path p = false) :
    createShare cfg st ca now ⟨p, s, e⟩ = (.error .errInvalidPath, [])
      ∧ validateShare ca p sec = (.error .errInvalidPath, [])
      ∧ getObjectSvc st p = (.error .errInvalidPath, []) := by
  have hinv : isValidS3Path p = false := by
    cases h with
    | inl hs => exact leading_slash_invalid p hs
    | inr hv => exact hv
  exact invalid_path_rejected_all cfg st ca now p s sec e hinv

/-- C2 witness: instantiation at the rooted path /etc/passwd. -/
theorem c2_unsafe_paths_rejected_witness :
    createShare cfg0 demoStorage (memCache []) 0 ⟨"/etc/passwd", "s", ⟨1000, 2025, 9, 13⟩⟩
        = (.error .errInvalidPath, [])
      ∧ validateShare (memCache []) "/etc/passwd" "s" = (.error .errInvalidPath, [])
      ∧ getObjectSvc demoStorage "/etc/passwd" = (.error .errInvalidPath, []) :=
  c2_unsafe_paths_rejected cfg0 demoStorage (memCache []) 0 "/etc/passwd" "s" "s"
    ⟨1000, 2025, 9, 13⟩ (Or.inl (by decide))

/-- C6: a ValidateShare call presenting the wrong secret for a shared path
and a ValidateShare call presenting any secret for a never-shared path (a
cache miss) both return exactly Unauthorized: the two runs are
observationally identical to the caller. -/
theorem c6_wrong_secret_indistinguishable (ca1 ca2 : CacheOracle)
    (p1 p2 s1 s2 stored : String)
    (hv1 : isValidS3Path p1 = true) (hv2 : isValidS3Path p2 = true)
    (h1 : ca1.get (generateCacheKey p1) = .ok stored) (hw : stored ≠ s1)
    (h2 : ca2.get (generateCacheKey p2) = .error .errNotFound) :
    (validateShare ca1 p1 s1).1 = .error .errUnauthorized
      ∧ (validateShare ca2 p2 s2).1 = .error .errUnauthorized
      ∧ (validateShare ca1 p1 s1).1 = (validateShare ca2 p2 s2).1 := by
  have e1 : (validateShare ca1 p1 s1).1 = .error .errUnauthorized := by
    simp [validateShare, hv1, h1, hw]
  have e2 : (validateShare ca2 p2 s2).1 = .error .errUnauthorized := by
    simp [validateShare, hv2, h2]
  exact ⟨e1, e2, e1.trans e2.symm⟩

/-- C6 witness: a shared path with a wrong secret next to a never-shared
path, both answered Unauthorized. -/
theorem c6_wrong_secret_indistinguishable_witness :
    (validateShare (memCache [("image-auth:img.jpg", "right")]) "img.jpg" "wrong").1
        = .error .errUnauthorized
      ∧ (validateShare (memCache []) "other.jpg" "any").1 = .error .errUnauthorized
      ∧ (validateShare (memCache [("image-auth:img.jpg", "right")]) "img.jpg" "wrong").1
        = (validateShare (memCache []) "other.jpg" "any").1 :=
  c6_wrong_secret_indistinguishable (memCache [("image-auth:img.jpg", "right")])
    (memCache []) "img.jpg" "other.jpg" "wrong" "any" "right"
    (by decide) (by decide) (by decide) (by decide) (by decide)

/-- C10: ValidateShare never mutates the cache: its adapter trace holds no
write, replaying the trace over any in-memory store returns that store
unchanged, and the trace is empty (invalid path) or exactly one Get of the
derived key — on every outcome. -/
theorem c10_validate_share_cache_frame (ca : CacheOracle) (p sec : String)
    (store : List (String × String)) :
    ((validateShare ca p sec).2.all fun c => !isCacheWrite c) = true
      ∧ applyCalls store (validateShare ca p sec).2 = store
      ∧ ((validateShare ca p sec).2 = []
          ∨ (validateShare ca p sec).2 = [.cacheGet (generateCacheKey p)]) := by
  unfold validateShare
  by_cases hv : isValidS3Path p
  · simp only [hv, Bool.not_true, Bool.false_eq_true, if_false]
    cases hg : ca.get (generateCacheKey p) with
    | error e =>
      by_cases he : e = .errNotFound <;>
        simp [he, applyCalls, applyCall, isCacheWrite]
    | ok v =>
      by_cases hs : v = sec <;> simp [hs, applyCalls, applyCall, isCacheWrite]
  · simp [hv, applyCalls]

/-- CreateShare against an in-memory cache, on a valid path whose object
exists, with a strictly future expiry: the exact success value and adapter
trace. -/
theorem createShare_memCache_ok (cfg : ShareConfig) (st : StorageOracle)
    (c0 : List (String × String)) (now : Int) (p s : String) (e : GoTime)
    (meta : ObjectMetadata)
    (hv : isValidS3Path p = true) (hh : st.headObject p = .ok meta)
    (hf : now < e.unix) :
    createShare cfg st (memCache c0) now ⟨p, s, e⟩
      = (.ok ⟨generateShareURL cfg p e, e, e.unix - now⟩,
         [.headObject p, .cacheSet (generateCacheKey p) s (e.unix - now)]) := by
  unfold createShare
  rw [hv]
  simp only [Bool.not_true, Bool.false_eq_true, if_false]
  rw [hh]
  have hpos : ¬ (e.unix - now ≤ 0) := by omega
  simp [hpos, memCache]

/-- The adapter trace of ValidateShare on a valid path is exactly one cache
Get of the derived key, whatever the cache answers. -/
theorem validateShare_trace (ca : CacheOracle) (p sec : String)
    (hv : isValidS3Path p = true) :
    (validateShare ca p sec).2 = [.cacheGet (generateCacheKey p)] := by
  unfold validateShare
  rw [hv]
  simp only [Bool.not_true, Bool.false_eq_true, if_false]
  cases hg : ca.get (generateCacheKey p) with
  | error e => by_cases he : e = .errNotFound <;> simp [he]
  | ok v => by_cases hs : v = sec <;> simp [hs]

/-- C9: on every accepted path both CreateShare and ValidateShare use the
cache key image-auth: followed by the raw, uncanonicalized path. Hence the
canonically equivalent spellings a//b and a/b (likewise ./a and a) are both
accepted yet use distinct keys, and a secret stored under one spelling does
not authorize the other. -/
theorem c9_cache_key_raw_path (cfg : ShareConfig) (st : StorageOracle)
    (ca : CacheOracle) (c0 : List (String × String)) (now : Int)
    (p s sec : String) (e : GoTime) (meta : ObjectMetadata)
    (hv : isValidS3Path p = true) (hh : st.headObject p = .ok meta)
    (hf : now < e.unix) :
    (createShare cfg st (memCache c0) now ⟨p, s, e⟩).2
        = [.headObject p, .cacheSet ("image-auth:" ++ p) s (e.unix - now)]
      ∧ (validateShare ca p sec).2 = [.cacheGet ("image-auth:" ++ p)]
      ∧ (isValidS3Path "a//b" = true ∧ isValidS3Path "a/b" = true
          ∧ generateCacheKey "a//b" ≠ generateCacheKey "a/b")
      ∧ (isValidS3Path "./a" = true ∧ isValidS3Path "a" = true
          ∧ generateCacheKey "./a" ≠ generateCacheKey "a")
      ∧ (validateShare (memCache [(generateCacheKey "a//b", "s1")]) "a/b" "s1").1
          = .error .errUnauthorized := by
  refine ⟨?_, ?_, by decide, by decide, by decide⟩
  · rw [createShare_memCache_ok cfg st c0 now p s e meta hv hh hf]
    rfl
  · exact validateShare_trace ca p sec hv

/-- C9 witness: instantiation at img.jpg against the demo store. -/
theorem c9_cache_key_raw_path_witness :
    (createShare cfg0 demoStorage (memCache []) 0
        ⟨"img.jpg", "mysecret", ⟨1000, 2025, 9, 13⟩⟩).2
        = [.headObject "img.jpg", .cacheSet ("image-auth:" ++ "img.jpg") "mysecret" (1000 - 0)]
      ∧ (validateShare (memCache []) "img.jpg" "mysecret").2
        = [.cacheGet ("image-auth:" ++ "img.jpg")]
      ∧ (isValidS3Path "a//b" = true ∧ isValidS3Path "a/b" = true
          ∧ generateCacheKey "a//b" ≠ generateCacheKey "a/b")
      ∧ (isValidS3Path "./a" = true ∧ isValidS3Path "a" = true
          ∧ generateCacheKey "./a" ≠ generateCacheKey "a")
      ∧ (validateShare (memCache [(generateCacheKey "a//b", "s1")]) "a/b" "s1").1
          = .error .errUnauthorized :=
  c9_cache_key_raw_path cfg0 demoStorage (memCache []) [] 0 "img.jpg" "mysecret"
    "mysecret" ⟨1000, 2025, 9, 13⟩ demoMeta (by decide) (by decide) (by decide)

/-- C5: two CreateShare calls for the same path, with secrets s1 then s2 and
future expiries, leave the cache in a state in which ValidateShare rejects
s1 as Unauthorized and accepts s2 — the second share overwrites the first,
and at most one secret is live per path. -/
theorem c5_second_share_overwrites (cfg : ShareConfig) (st : StorageOracle)
    (c0 : List (String × String)) (p s1 s2 : String) (e1 e2 : GoTime)
    (n1 n2 : Int) (meta : ObjectMetadata)
    (hv : isValidS3Path p = true) (hh : st.headObject p = .ok meta)
    (hf1 : n1 < e1.unix) (hf2 : n2 < e2.unix) (hne : s1 ≠ s2) :
    let r1 := createShare cfg st (memCache c0) n1 ⟨p, s1, e1⟩
    let c1 := applyCalls c0 r1.2
    let r2 := createShare cfg st (memCache c1) n2 ⟨p, s2, e2⟩
    let c2 := applyCalls c1 r2.2
    exceptIsOk r1.1 = true ∧ exceptIsOk r2.1 = true
      ∧ (validateShare (memCache c2) p s1).1 = .error .errUnauthorized
      ∧ (validateShare (memCache c2) p s2).1 = .ok () := by
  have h1 := createShare_memCache_ok cfg st c0 n1 p s1 e1 meta hv hh hf1
  simp only [h1]
  have hc1 : applyCalls c0 [.headObject p, .cacheSet (generateCacheKey p) s1 (e1.unix - n1)]
      = (generateCacheKey p, s1) :: c0 := by
    simp [applyCalls, applyCall]
  simp only [hc1]
  have h2 := createShare_memCache_ok cfg st ((generateCacheKey p, s1) :: c0) n2 p s2 e2
    meta hv hh hf2
  simp only [h2]
  have hc2 : applyCalls ((generateCacheKey p, s1) :: c0)
      [.headObject p, .cacheSet (generateCacheKey p) s2 (e2.unix - n2)]
      = (generateCacheKey p, s2) :: (generateCacheKey p, s1) :: c0 := by
    simp [applyCalls, applyCall]
  simp only [hc2]
  refine ⟨rfl, rfl, ?_, ?_⟩
  · unfold validateShare
    rw [hv]
    simp [memCache, memLookup, Ne.symm hne]
  · unfold validateShare
    rw [hv]
    simp [memCache, memLookup]

/-- C5 witness: img.jpg shared with first then second, after which first is
rejected and second accepted. -/
theorem c5_second_share_overwrites_witness :
    (validateShare (memCache (applyCalls
        (applyCalls [] (createShare cfg0 demoStorage (memCache []) 0
          ⟨"img.jpg", "first", ⟨1000, 2025, 9, 13⟩⟩).2)
        (createShare cfg0 demoStorage (memCache (applyCalls []
          (createShare cfg0 demoStorage (memCache []) 0
            ⟨"img.jpg", "first", ⟨1000, 2025, 9, 13⟩⟩).2)) 0
          ⟨"img.jpg", "second", ⟨2000, 2025, 9, 14⟩⟩).2))
        "img.jpg" "first").1 = .error .errUnauthorized
      ∧ (validateShare (memCache (applyCalls
          (applyCalls [] (createShare cfg0 demoStorage (memCache []) 0
            ⟨"img.jpg", "first", ⟨1000, 2025, 9, 13⟩⟩).2)
          (createShare cfg0 demoStorage (memCache (applyCalls []
            (createShare cfg0 demoStorage (memCache []) 0
              ⟨"img.jpg", "first", ⟨1000, 2025, 9, 13⟩⟩).2)) 0
            ⟨"img.jpg", "second", ⟨2000, 2025, 9, 14⟩⟩).2))
          "img.jpg" "second").1 = .ok () := by
  have h := c5_second_share_overwrites cfg0 demoStorage [] "img.jpg" "first" "second"
    ⟨1000, 2025, 9, 13⟩ ⟨2000, 2025, 9, 14⟩ 0 0 demoMeta
    (by decide) (by decide) (by decide) (by decide) (by decide)
  exact ⟨h.2.2.1, h.2.2.2⟩

/-- Parsing a generated share URL under its own base always recovers the
formatted expiry date, the derived secret and the exact object path. -/
theorem parseShareURL_roundtrip (cfg : ShareConfig) (p : String) (e : GoTime) :
    parseShareURL cfg.baseURL (generateShareURL cfg p e)
      = some (⟨pad2 (e.year % 100)⟩, ⟨pad2 e.month⟩, ⟨pad2 e.day⟩,
          generateSecret p e, p) := by
  have hslash : ("/" : String).data = ['/'] := rfl
  have hdata : (generateShareURL cfg p e).data
      = (cfg.baseURL.data ++ ['/']) ++ (pad2 (e.year % 100) ++ '/' ::
        (pad2 e.month ++ '/' :: (pad2 e.day ++ '/' ::
        ((generateSecret p e).data ++ '/' :: p.data)))) := by
    simp only [generateShareURL, String.data_append, hslash]
    simp [List.append_assoc]
  unfold parseShareURL
  rw [hdata, dropPre_append]
  have hs : splitSlash (pad2 (e.year % 100) ++ '/' :: (pad2 e.month ++ '/' ::
      (pad2 e.day ++ '/' :: ((generateSecret p e).data ++ '/' :: p.data))))
      = pad2 (e.year % 100) :: pad2 e.month :: pad2 e.day ::
        (generateSecret p e).data :: splitSlash p.data := by
    rw [splitSlash_append _ _ (slashFree_pad2 _), splitSlash_append _ _ (slashFree_pad2 _),
      splitSlash_append _ _ (slashFree_pad2 _), splitSlash_append _ _ (slashFree_secret p e)]
  simp [hs, splitSlash_ne_nil p.data, joinSlash_splitSlash]

/-- C1 counterexample. A concrete CreateShare run on an existing object with
the caller's secret mysecret succeeds, but the secret segment of the
returned URL parses back as secret_3ef — the deterministic derived secret of
generateSecret — not as mysecret. This refutes the claim that parsing the
URL yields the secret s that was stored. -/
theorem c1_url_secret_counterexample :
    (createShare cfg0 demoStorage (memCache []) 0
        ⟨"img.jpg", "mysecret", ⟨1000, 2025, 9, 13⟩⟩).1
      = .ok ⟨"http://h/25/09/13/secret_3ef/img.jpg", ⟨1000, 2025, 9, 13⟩, 1000⟩
    ∧ parseShareURL "http://h" "http://h/25/09/13/secret_3ef/img.jpg"
      = some ("25", "09", "13", "secret_3ef", "img.jpg")
    ∧ ("secret_3ef" : String) ≠ "mysecret"
    ∧ (validateShare (memCache (applyCalls []
        (createShare cfg0 demoStorage (memCache []) 0
          ⟨"img.jpg", "mysecret", ⟨1000, 2025, 9, 13⟩⟩).2)) "img.jpg" "secret_3ef").1
      = .error .errUnauthorized := by
  exact ⟨by decide, by decide, by decide, by decide⟩

/-- C1 amended: for a safe path against an in-memory cache, CreateShare
succeeds exactly when the object exists and the expiry is strictly in the
future; on success the URL is generateShareURL's value, and parsing that URL
back yields the two-digit date of e, the path p, and the derived secret
generateSecret(p, e) — not the caller's secret s. -/
theorem c1_createshare_success_and_url (cfg : ShareConfig) (st : StorageOracle)
    (c0 : List (String × String)) (now : Int) (p s : String) (e : GoTime)
    (hv : isValidS3Path p = true) :
    exceptIsOk (createShare cfg st (memCache c0) now ⟨p, s, e⟩).1
        = (exceptIsOk (st.headObject p) && decide (now < e.unix))
      ∧ (∀ meta, st.headObject p = .ok meta → now < e.unix →
          (createShare cfg st (memCache c0) now ⟨p, s, e⟩).1
            = .ok ⟨generateShareURL cfg p e, e, e.unix - now⟩)
      ∧ parseShareURL cfg.baseURL (generateShareURL cfg p e)
          = some (⟨pad2 (e.year % 100)⟩, ⟨pad2 e.month⟩, ⟨pad2 e.day⟩,
              generateSecret p e, p) := by
  refine ⟨?_, ?_, parseShareURL_roundtrip cfg p e⟩
  · unfold createShare
    rw [hv]
    simp only [Bool.not_true, Bool.false_eq_true, if_false]
    cases hh : st.headObject p with
    | error er => simp [exceptIsOk]
    | ok meta =>
      by_cases hfut : now < e.unix
      · have hpos : ¬ (e.unix - now ≤ 0) := by omega
        simp [hpos, memCache, exceptIsOk, hfut]
      · have hpos : e.unix - now ≤ 0 := by omega
        simp [hpos, exceptIsOk, hfut]
  · intro meta hh hfut
    rw [createShare_memCache_ok cfg st c0 now p s e meta hv hh hfut]

/-- C1 witness: instantiation at the demo object, every hypothesis
discharged. -/
theorem c1_createshare_success_and_url_witness :
    exceptIsOk (createShare cfg0 demoStorage (memCache []) 0
        ⟨"img.jpg", "mysecret", ⟨1000, 2025, 9, 13⟩⟩).1
        = (exceptIsOk (demoStorage.headObject "img.jpg") && decide ((0 : Int) < (1000 : Int)))
      ∧ (createShare cfg0 demoStorage (memCache []) 0
          ⟨"img.jpg", "mysecret", ⟨1000, 2025, 9, 13⟩⟩).1
          = .ok ⟨generateShareURL cfg0 "img.jpg" ⟨1000, 2025, 9, 13⟩,
              ⟨1000, 2025, 9, 13⟩, 1000 - 0⟩
      ∧ parseShareURL cfg0.baseURL (generateShareURL cfg0 "img.jpg" ⟨1000, 2025, 9, 13⟩)
          = some (⟨pad2 (2025 % 100)⟩, ⟨pad2 9⟩, ⟨pad2 13⟩,
              generateSecret "img.jpg" ⟨1000, 2025, 9, 13⟩, "img.jpg") := by
  have h := c1_createshare_success_and_url cfg0 demoStorage [] 0 "img.jpg" "mysecret"
    ⟨1000, 2025, 9, 13⟩ (by decide)
  exact ⟨h.1, h.2.1 demoMeta (by decide) (by decide), h.2.2⟩

/-- Whether a response carries the JSON failure shape: an error text, a code
equal to the HTTP status, and a message equal to the error text. -/
def errorShaped (r : HttpResponse) : Bool :=
  match r.body with
  | .jsonError e c m => c = r.status && m = e
  | _ => false

/-- C3 counterexample. A GET request whose path splits into only four
segments is answered by http.NotFound — status 404 with a plain-text body —
not by the claimed 400. -/
theorem c3_short_path_counterexample :
    handleImage 0 demoStorage (memCache []) "/a/b/c/d" = (notFoundResp, [])
      ∧ notFoundResp.status = 404
      ∧ ¬ notFoundResp.status = 400 := by
  exact ⟨by decide, rfl, by decide⟩

/-- C3 amended: a GET request splitting into fewer than five segments is
rejected with the plain 404 of http.NotFound (not 400); a request with at
least five segments whose first three fail to parse as a two-digit-year
date is rejected with 400. -/
theorem c3_short_or_bad_date (now : Int) (st : StorageOracle) (ca : CacheOracle)
    (p : String) :
    ((urlParts p).length < 5 → handleImage now st ca p = (notFoundResp, []))
      ∧ (apiGuard p = false → ¬ (urlParts p).length < 5 →
          exceptIsOk (parseDate (urlDateChars p)) = false →
          handleImage now st ca p = (writeError "invalid date format" 400, [])) := by
  constructor
  · intro hlen
    unfold handleImage
    by_cases hg : apiGuard p
    · simp [hg]
    · simp [hg, hlen]
  · intro hg hlen hbad
    unfold handleImage
    rw [hg]
    simp only [Bool.false_eq_true, if_false, if_neg hlen]
    cases hp : parseDate (urlDateChars p) with
    | error er => simp
    | ok v => rw [hp] at hbad; simp [exceptIsOk] at hbad

/-- C3 witness: a five-segment path whose date fields are not digits is
answered 400. -/
theorem c3_short_or_bad_date_witness :
    handleImage 0 demoStorage (memCache []) "/aa/b/c/d/e.jpg"
      = (writeError "invalid date format" 400, []) :=
  (c3_short_or_bad_date 0 demoStorage (memCache []) "/aa/b/c/d/e.jpg").2
    (by decide) (by decide) (by decide)

/-- C4 counterexample. A POST /api/shares body with an unsafe (rooted)
object path and a nonempty secret is answered 500 — the handler maps every
CreateShare failure, the path-validation failure included, to 500 — where
the claim requires 400. -/
theorem c4_invalid_path_counterexample :
    (handleCreateShare cfg0 demoStorage (memCache []) "POST" 0 ⟨86400, 1970, 1, 2⟩
        (some ⟨"/etc/passwd", "s", some ⟨1000, 2025, 9, 13⟩⟩)).1.status = 500
      ∧ ¬ (handleCreateShare cfg0 demoStorage (memCache []) "POST" 0 ⟨86400, 1970, 1, 2⟩
          (some ⟨"/etc/passwd", "s", some ⟨1000, 2025, 9, 13⟩⟩)).1.status = 400 := by
  exact ⟨by decide, by decide⟩

/-- C4 amended: on POST /api/shares a missing s3_path or secret produces
400; every CreateShare failure — the unsafe-path rejection included, not
only backend failures — produces 500; and every non-200 response carries
the error/code/message JSON shape with code equal to the status. -/
theorem c4_create_share_statuses (cfg : ShareConfig) (st : StorageOracle)
    (ca : CacheOracle) (now : Int) (n24 : GoTime) (req : CreateShareReqBody)
    (b : Option CreateShareReqBody) :
    (req.s3Path = "" →
        handleCreateShare cfg st ca "POST" now n24 (some req)
          = (writeError "s3_path is required" 400, []))
      ∧ (req.s3Path ≠ "" → req.secret = "" →
          handleCreateShare cfg st ca "POST" now n24 (some req)
            = (writeError "secret is required" 400, []))
      ∧ (req.s3Path ≠ "" → req.secret ≠ "" →
          exceptIsOk (createShare cfg st ca now
              ⟨req.s3Path, req.secret, req.expiresAt.getD n24⟩).1 = false →
          handleCreateShare cfg st ca "POST" now n24 (some req)
            = (writeError "failed to create share" 500,
               (createShare cfg st ca now
                 ⟨req.s3Path, req.secret, req.expiresAt.getD n24⟩).2))
      ∧ ((handleCreateShare cfg st ca "POST" now n24 b).1.status ≠ 200 →
          errorShaped (handleCreateShare cfg st ca "POST" now n24 b).1 = true) := by
  refine ⟨?_, ?_, ?_, ?_⟩
  · intro h1
    simp [handleCreateShare, h1]
  · intro h1 h2
    simp [handleCreateShare, h1, h2]
  · intro h1 h2 hfail
    unfold handleCreateShare
    simp only [if_neg (by decide : ¬ ("POST" : String) ≠ "POST"), if_neg h1, if_neg h2]
    rcases hc : createShare cfg st ca now
        ⟨req.s3Path, req.secret, req.expiresAt.getD n24⟩ with ⟨v, t⟩
    cases v with
    | error er => simp
    | ok resp => rw [hc] at hfail; simp [exceptIsOk] at hfail
  · intro hst
    unfold handleCreateShare at hst ⊢
    simp only [if_neg (by decide : ¬ ("POST" : String) ≠ "POST")] at hst ⊢
    cases b with
    | none => simp [errorShaped, writeError]
    | some r =>
      by_cases hp : r.s3Path = ""
      · simp [hp, errorShaped, writeError]
      · by_cases hs : r.secret = ""
        · simp [hp, hs, errorShaped, writeError]
        · simp only [if_neg hp, if_neg hs] at hst ⊢
          rcases hc : createShare cfg st ca now
              ⟨r.s3Path, r.secret, r.expiresAt.getD n24⟩ with ⟨v, t⟩
          rw [hc] at hst
          cases v with
          | error er => simp [errorShaped, writeError]
          | ok resp => simp at hst

/-- C4 witness: a body with an empty s3_path is answered 400, and the
unsafe-path failure body carries the error/code/message shape. -/
theorem c4_create_share_statuses_witness :
    handleCreateShare cfg0 demoStorage (memCache []) "POST" 0 ⟨86400, 1970, 1, 2⟩
        (some ⟨"", "s", none⟩) = (writeError "s3_path is required" 400, [])
      ∧ errorShaped (handleCreateShare cfg0 demoStorage (memCache []) "POST" 0
          ⟨86400, 1970, 1, 2⟩
          (some ⟨"/etc/passwd", "s", some ⟨1000, 2025, 9, 13⟩⟩)).1 = true := by
  have h := c4_create_share_statuses cfg0 demoStorage (memCache []) 0 ⟨86400, 1970, 1, 2⟩
    ⟨"", "s", none⟩ (some ⟨"/etc/passwd", "s", some ⟨1000, 2025, 9, 13⟩⟩)
  exact ⟨h.1 rfl, h.2.2.2 (by decide)⟩

/-- C7: the expiry decision of the catch-all route. With the URL's date
parsing to expUnix: at any handling instant up to and including that exact
second the response is identical to the boundary response (validation
proceeds), the boundary response is never the 403 expiry rejection, and one
second past the boundary the response is exactly the 403 link-expired error
with an empty adapter trace — the decision is taken from the re-parsed
URL-embedded date alone, before any stored state is read. -/
theorem c7_expiry_boundary (st : StorageOracle) (ca : CacheOracle) (p : String)
    (expUnix now : Int)
    (hg : apiGuard p = false)
    (hlen : ¬ (urlParts p).length < 5)
    (hparse : parseDate (urlDateChars p) = .ok expUnix) :
    (now ≤ expUnix → handleImage now st ca p = handleImage expUnix st ca p)
      ∧ (handleImage expUnix st ca p).1.status ≠ 403
      ∧ handleImage (expUnix + 1) st ca p = (writeError "link expired" 403, []) := by
  refine ⟨?_, ?_, ?_⟩
  · intro hle
    unfold handleImage
    rw [hg]
    simp only [Bool.false_eq_true, if_false, if_neg hlen]
    rw [hparse]
    simp only [if_neg (by omega : ¬ expUnix < now),
      if_neg (by omega : ¬ expUnix < expUnix)]
  · unfold handleImage
    rw [hg]
    simp only [Bool.false_eq_true, if_false, if_neg hlen]
    rw [hparse]
    simp only [if_neg (by omega : ¬ expUnix < expUnix)]
    rcases hv : validateShare ca (urlS3Path p) (urlSecret p) with ⟨v, t⟩
    cases v with
    | error er => cases er <;> simp [writeError]
    | ok u =>
      rcases hget : getObjectSvc st (urlS3Path p) with ⟨w, t2⟩
      cases w <;> simp [writeError]
  · unfold handleImage
    rw [hg]
    simp only [Bool.false_eq_true, if_false, if_neg hlen]
    rw [hparse]
    simp only [if_pos (by omega : expUnix < expUnix + 1)]

/-- C7 witness: the boundary at the URL date 25/09/13, whose midnight is
Unix second 1757721600: at that exact second the response is not 403, one
second later it is the 403 expiry error with no adapter call. -/
theorem c7_expiry_boundary_witness :
    ¬ (handleImage 1757721600 demoStorage (memCache [("image-auth:img.jpg", "sec")])
          "/25/09/13/sec/img.jpg").1.status = 403
      ∧ handleImage (1757721600 + 1) demoStorage (memCache [("image-auth:img.jpg", "sec")])
          "/25/09/13/sec/img.jpg"
          = (writeError "link expired" 403, []) := by
  have h := c7_expiry_boundary demoStorage (memCache [("image-auth:img.jpg", "sec")])
    "/25/09/13/sec/img.jpg" 1757721600 1757721600
    (by decide) (by decide) (by decide)
  exact ⟨h.2.1, h.2.2⟩

/-- C8 counterexample. A request that passes the expiry and secret checks,
against a storage adapter whose object fetch fails with a backend error
(connection refused, not a not-found), is answered 404 — the handler maps
every GetObject failure to 404 — where the claim requires 500. -/
theorem c8_backend_fetch_counterexample :
    handleImage 1757721600 failStorage (memCache [("image-auth:img.jpg", "sec")])
        "/25/09/13/sec/img.jpg"
      = (writeError "not found" 404,
         [.cacheGet "image-auth:img.jpg", .getObject "img.jpg"])
      ∧ failStorage.getObject "img.jpg" = .error (.msg "connection refused")
      ∧ ¬ (writeError "not found" 404).status = 500 := by
  exact ⟨by decide, by decide, by decide⟩

/-- C8 amended: on a request that passes the expiry and secret checks, every
GetObject failure — storage-backend errors included — produces HTTP 404; the
fetch stage never produces 500. -/
theorem c8_fetch_failure_is_404 (st : StorageOracle) (ca : CacheOracle) (p : String)
    (expUnix now : Int)
    (hg : apiGuard p = false)
    (hlen : ¬ (urlParts p).length < 5)
    (hparse : parseDate (urlDateChars p) = .ok expUnix)
    (hnow : ¬ expUnix < now)
    (hval : (validateShare ca (urlS3Path p) (urlSecret p)).1 = .ok ())
    (hfetch : exceptIsOk (getObjectSvc st (urlS3Path p)).1 = false) :
    (handleImage now st ca p).1 = writeError "not found" 404 := by
  unfold handleImage
  rw [hg]
  simp only [Bool.false_eq_true, if_false, if_neg hlen]
  rw [hparse]
  simp only [if_neg hnow]
  rcases hv : validateShare ca (urlS3Path p) (urlSecret p) with ⟨v, t⟩
  rw [hv] at hval
  cases v with
  | error er => exact absurd hval (by simp)
  | ok u =>
    rcases hget : getObjectSvc st (urlS3Path p) with ⟨w, t2⟩
    rw [hget] at hfetch
    cases w with
    | error er => rfl
    | ok r => simp [exceptIsOk] at hfetch

/-- C8 witness: the backend-failing store behind a valid share. -/
theorem c8_fetch_failure_is_404_witness :
    (handleImage 1757721600 failStorage (memCache [("image-auth:img.jpg", "sec")])
        "/25/09/13/sec/img.jpg").1 = writeError "not found" 404 :=
  c8_fetch_failure_is_404 failStorage (memCache [("image-auth:img.jpg", "sec")])
    "/25/09/13/sec/img.jpg" 1757721600 1757721600
    (by decide) (by decide) (by decide) (by decide) (by decide) (by decide)

end S3Share
